import Mathlib

/-!
Verification of the coffee-sales dashboard (`dashboard.py`).

The script is a linear pandas/streamlit pipeline: load a CSV, derive columns,
narrow the frame through a date filter and four `isin` multiselect filters,
then build one aggregation table per chart (groupby + sum, sometimes followed
by a sort or a reindex onto a canonical category list).  This file embeds the
data model and those stages shallowly: a dataframe row is a `Record`, a frame
is a `List Record`, a groupby-sum result is an association list, and a pandas
`NaN` produced by `reindex` is an `Option` `none`.
-/

/-- A calendar date, as handled by `pd.to_datetime` (dates only, no time part). -/
structure Date where
  year : Int
  month : Nat
  day : Nat
deriving DecidableEq, Repr

/-- Days since 1970-01-01 of a civil date (proleptic Gregorian calendar),
the standard days-from-civil algorithm.  This realises the timeline order and
day arithmetic of pandas timestamps. -/
def Date.toDays (d : Date) : Int :=
  let y : Int := if d.month ≤ 2 then d.year - 1 else d.year
  let era : Int := Int.fdiv y 400
  let yoe : Int := y - era * 400
  let mp : Int := if d.month > 2 then (d.month : Int) - 3 else (d.month : Int) + 9
  let doy : Int := (153 * mp + 2) / 5 + (d.day : Int) - 1
  let doe : Int := yoe * 365 + yoe / 4 - yoe / 100 + doy
  era * 146097 + doe - 719468

/-- Civil date of a day count (inverse of `Date.toDays`; civil-from-days). -/
def Date.ofDays (z0 : Int) : Date :=
  let z : Int := z0 + 719468
  let era : Int := Int.fdiv z 146097
  let doe : Int := z - era * 146097
  let yoe : Int := (doe - doe / 1460 + doe / 36524 - doe / 146096) / 365
  let y : Int := yoe + era * 400
  let doy : Int := doe - (365 * yoe + yoe / 4 - yoe / 100)
  let mp : Int := (5 * doy + 2) / 153
  let d : Int := doy - (153 * mp + 2) / 5 + 1
  let m : Int := if mp < 10 then mp + 3 else mp - 9
  { year := if m ≤ 2 then y + 1 else y, month := m.toNat, day := d.toNat }

/-- Calendar subtraction of days: `today - pd.Timedelta(days=n)`. -/
def Date.subDays (d : Date) (n : Int) : Date := Date.ofDays (d.toDays - n)

/-- Chronological order on dates, the order pandas timestamp comparison uses. -/
def Date.le (a b : Date) : Prop := a.toDays ≤ b.toDays

instance : LE Date := ⟨Date.le⟩

instance (a b : Date) : Decidable (a ≤ b) :=
  inferInstanceAs (Decidable (a.toDays ≤ b.toDays))

/-- One row of the loaded dataframe.  The fields are the CSV columns used by
the script (`dashboard.py` lines 19-31).  Monetary values are exact integers
in fixed-point minor units (the CSV's one-decimal amounts scaled by ten), so
sums and zero tests are exact as they are for pandas floats on this data. -/
structure Record where
  date : Date
  hour_of_day : Nat
  Weekday : String
  Month_name : String
  Time_of_Day : String
  coffee_name : String
  money : ℤ
  City : String
  cash_type : String
deriving DecidableEq, Repr

/-- Derived column `total_sales` (line 20): a copy of `money`. -/
def Record.total_sales (r : Record) : ℤ := r.money

/-- Derived column `day_of_week` (line 23): a copy of `Weekday`. -/
def Record.day_of_week (r : Record) : String := r.Weekday

/-- Derived column `month` (line 24): a copy of `Month_name`. -/
def Record.month (r : Record) : String := r.Month_name

/-- Derived column `hour` (line 26): a copy of `hour_of_day`. -/
def Record.hour (r : Record) : Nat := r.hour_of_day

/-- Derived column `time_of_day` (line 28): a copy of `Time_of_Day`. -/
def Record.time_of_day (r : Record) : String := r.Time_of_Day

/-- Derived column `product_line` (line 30): a copy of `coffee_name`. -/
def Record.product_line (r : Record) : String := r.coffee_name

/-- Derived column `month_year` (line 33): the date rendered as the monthly
period string "YYYY-MM", as `to_period('M').astype(str)` produces. -/
def Record.month_year (r : Record) : String :=
  toString r.date.year ++ "-" ++ (if r.date.month < 10 then "0" else "") ++ toString r.date.month

/-- Derived column `year` (line 42). -/
def Record.year (r : Record) : Int := r.date.year

/-- Derived column `month_num` (line 43). -/
def Record.month_num (r : Record) : Nat := r.date.month

/-- Derived column `quarter` (line 44). -/
def Record.quarter (r : Record) : Nat := (r.date.month - 1) / 3 + 1

/-- The state of the sidebar filter widgets: a resolved date window plus the
four multiselect lists (lines 96-138). -/
structure Criteria where
  start_date : Date
  end_date : Date
  cities : List String
  products : List String
  times_of_day : List String
  payment_methods : List String
deriving DecidableEq, Repr

/-- The date filter (lines 96-97): keep rows with `start_date <= Date <= end_date`. -/
def filterDate (rows : List Record) (s e : Date) : List Record :=
  rows.filter (fun r => decide (s ≤ r.date) && decide (r.date ≤ e))

/-- The full filter stage (lines 96-138): the date window, then the four
`isin` multiselect filters applied in sequence. -/
def applyFilters (rows : List Record) (c : Criteria) : List Record :=
  let d0 := filterDate rows c.start_date c.end_date
  let d1 := d0.filter (fun r => decide (r.City ∈ c.cities))
  let d2 := d1.filter (fun r => decide (r.product_line ∈ c.products))
  let d3 := d2.filter (fun r => decide (r.time_of_day ∈ c.times_of_day))
  d3.filter (fun r => decide (r.cash_type ∈ c.payment_methods))

/-- The options of the "Quick Period" selectbox (line 58). -/
inductive DatePreset where
  | custom
  | last7days
  | last30days
  | thisMonth
  | thisQuarter
  | thisYear
  | prevYear
deriving DecidableEq, Repr

/-- Date-preset resolution (lines 63-93): turn the selected preset and the
reference date `today` into a concrete `(start_date, end_date)` window.  For
"Custom", the widget value is used when present, else the data bounds. -/
def resolvePreset (p : DatePreset) (today min_date max_date : Date)
    (date_range : Option (Date × Date)) : Date × Date :=
  match p with
  | .last7days => (today.subDays 7, today)
  | .last30days => (today.subDays 30, today)
  | .thisMonth => ({ today with day := 1 }, today)
  | .thisQuarter =>
      let current_quarter := (today.month - 1) / 3 + 1
      (⟨today.year, 3 * current_quarter - 2, 1⟩, today)
  | .thisYear => (⟨today.year, 1, 1⟩, today)
  | .prevYear => (⟨today.year - 1, 1, 1⟩, ⟨today.year - 1, 12, 31⟩)
  | .custom =>
      match date_range with
      | some (s, e) => (s, e)
      | none => (min_date, max_date)

/-- The date windows as the spec words them (section 4.2): last N days is
`[today - N days, today]`, this month starts at the first day of today's
month, this quarter at the first day of today's calendar quarter, this year
at Jan 1, and previous year is the whole previous calendar year.  `none` for
"Custom", whose window is user-supplied. -/
def specPresetWindow (p : DatePreset) (today : Date) : Option (Date × Date) :=
  match p with
  | .last7days => some (today.subDays 7, today)
  | .last30days => some (today.subDays 30, today)
  | .thisMonth => some (⟨today.year, today.month, 1⟩, today)
  | .thisQuarter => some (⟨today.year, 3 * ((today.month - 1) / 3) + 1, 1⟩, today)
  | .thisYear => some (⟨today.year, 1, 1⟩, today)
  | .prevYear => some (⟨today.year - 1, 1, 1⟩, ⟨today.year - 1, 12, 31⟩)
  | .custom => none

/-- Lexicographic order on character lists, by code point — the order pandas
uses to sort string group keys. -/
def charListLe : List Char → List Char → Bool
  | [], _ => true
  | _ :: _, [] => false
  | a :: as, b :: bs => if a = b then charListLe as bs else decide (a < b)

/-- Lexicographic order on strings. -/
def strLe (a b : String) : Bool := charListLe a.data b.data

/-- Insert an element into a list, in front of the first element it is `le`
to (insertion step of a stable insertion sort). -/
def insertLe {α : Type} (le : α → α → Bool) (a : α) : List α → List α
  | [] => [a]
  | b :: t => if le a b then a :: b :: t else b :: insertLe le a t

/-- Stable insertion sort by a boolean comparison — the sorting primitive for
the stable sorts pandas applies (`sort_values`, sorted group keys). -/
def sortBy {α : Type} (le : α → α → Bool) : List α → List α
  | [] => []
  | a :: t => insertLe le a (sortBy le t)

/-- First value in an association list at a string key (the value a pandas
lookup such as a dict/`reindex` match retrieves; `none` models NaN / no hit). -/
def lookupKey {α : Type} (table : List (String × α)) (c : String) : Option α :=
  match table with
  | [] => none
  | (k, v) :: t => if c = k then some v else lookupKey t c

/-- The keys of an association list. -/
def keysOf {α : Type} (table : List (String × α)) : List String :=
  table.map Prod.fst

/-- Groupby-sum over (key, value) pairs, as `df.groupby(k)[v].sum()` computes
it: one row per distinct key, keys in ascending order (pandas groups sort by
default), each carrying the sum of the values at that key. -/
def groupbySumP (pairs : List (String × ℤ)) : List (String × ℤ) :=
  (sortBy strLe ((pairs.map Prod.fst).dedup)).map
    (fun k => (k, ((pairs.filter (fun p => decide (p.1 = k))).map Prod.snd).sum))

/-- `rows.groupby(key)['total_sales'].sum()` for a record key column. -/
def groupbySum (rows : List Record) (key : Record → String) : List (String × ℤ) :=
  groupbySumP (rows.map (fun r => (key r, r.total_sales)))

/-- Pair each row's mapped key (dropping rows the mapping sends to NaN, which
`groupby` discards) with its `total_sales`, as `df[col].map(dict)` followed by
a groupby does. -/
def mapped_pairs (rows : List Record) (f : Record → Option String) : List (String × ℤ) :=
  rows.filterMap (fun r => (f r).map (fun k => (k, r.total_sales)))

/-- `table.reindex(canon)`: one row per canonical label, in canonical order,
whose value is the table's value there, or `none` (NaN) when absent. -/
def reindex (table : List (String × ℤ)) (canon : List String) : List (String × Option ℤ) :=
  canon.map (fun c => (c, lookupKey table c))

/-- `day_order` (line 273): the canonical weekday labels. -/
def day_order : List String :=
  ["Monday", "Tuesday", "Wednesday", "Thursday", "Friday", "Saturday", "Sunday"]

/-- `full_months` (line 298). -/
def full_months : List String :=
  ["January", "February", "March", "April", "May", "June", "July", "August",
   "September", "October", "November", "December"]

/-- `short_months` (line 299). -/
def short_months : List String :=
  ["Jan", "Feb", "Mar", "Apr", "May", "Jun", "Jul", "Aug", "Sep", "Oct", "Nov", "Dec"]

/-- `time_order` (line 230): the canonical time-of-day labels. -/
def time_order : List String := ["Morning", "Afternoon", "Evening", "Night"]

/-- `weekday_map` (line 275): `dict(zip(day_order, day_order))` — the identity
on the seven canonical labels; any other label maps to NaN. -/
def weekday_map (s : String) : Option String :=
  if s ∈ day_order then some s else none

/-- `month_map` (line 300): `dict(zip(full_months, short_months))`; labels
outside `full_months` map to NaN. -/
def month_map (s : String) : Option String :=
  lookupKey (full_months.zip short_months) s

/-- The rank a label takes in the ordered categorical of line 232: its
position in `time_order`, with labels outside the categories (NaN) after all
categories, as `sort_values` places NaN last. -/
def todRank (s : String) : Nat := time_order.indexOf s

/-- `sales_by_product` (lines 184-185): groupby product, sum, then sort by
descending aggregate value. -/
def sales_by_product (rows : List Record) : List (String × ℤ) :=
  sortBy (fun a b => decide (b.2 ≤ a.2)) (groupbySum rows Record.product_line)

/-- `sales_by_tod` (lines 230-233): groupby time-of-day, sum, then sort by the
ordered categorical {Morning, Afternoon, Evening, Night}.  Note the code does
not reindex this table: only present categories appear. -/
def sales_by_tod (rows : List Record) : List (String × ℤ) :=
  sortBy (fun a b => decide (todRank a.1 ≤ todRank b.1))
    (groupbySum rows Record.time_of_day)

/-- `sales_by_payment` (line 249): groupby payment method, sum. -/
def sales_by_payment (rows : List Record) : List (String × ℤ) :=
  groupbySum rows Record.cash_type

/-- `sales_by_weekday` (lines 277-280): map `Weekday` through `weekday_map`
(rows whose label is not canonical become NaN and are dropped by the groupby),
groupby, sum, and reindex onto the seven canonical weekdays. -/
def sales_by_weekday (rows : List Record) : List (String × Option ℤ) :=
  reindex (groupbySumP (mapped_pairs rows (fun r => weekday_map r.Weekday))) day_order

/-- `sales_by_month` (lines 301-304): map `Month_name` through `month_map`,
groupby, sum, and reindex onto the twelve short month names. -/
def sales_by_month (rows : List Record) : List (String × Option ℤ) :=
  reindex (groupbySumP (mapped_pairs rows (fun r => month_map r.Month_name))) short_months

/-- `monthly_sales` (line 339): groupby month-year over the rows of a fresh
`load_data()` call — the full, unfiltered record set. -/
def monthly_sales (full : List Record) : List (String × ℤ) :=
  groupbySum full Record.month_year

/-- What a chart slot ends up showing: a chart built from an aggregation
table, or the informational "no data" placeholder (`st.info`). -/
inductive ChartResult (α : Type) where
  | chart (table : α)
  | noData
deriving DecidableEq, Repr

/-- The weekday chart slot (lines 282-293): show the placeholder when the
table's sales sum to zero (NaN entries are skipped by the pandas sum) or the
table is empty; otherwise chart the table. -/
def weekday_stage (rows : List Record) : ChartResult (List (String × Option ℤ)) :=
  let t := sales_by_weekday rows
  if (t.map (fun p => p.2.getD 0)).sum = 0 ∨ t = [] then ChartResult.noData
  else ChartResult.chart t

/-- The month chart slot (lines 306-318), same placeholder policy. -/
def month_stage (rows : List Record) : ChartResult (List (String × Option ℤ)) :=
  let t := sales_by_month rows
  if (t.map (fun p => p.2.getD 0)).sum = 0 ∨ t = [] then ChartResult.noData
  else ChartResult.chart t

/-- The product chart slot (lines 183-205): charted unconditionally. -/
def product_stage (rows : List Record) : ChartResult (List (String × ℤ)) :=
  ChartResult.chart (sales_by_product rows)

/-- The time-of-day chart slot (lines 229-244): charted unconditionally. -/
def tod_stage (rows : List Record) : ChartResult (List (String × ℤ)) :=
  ChartResult.chart (sales_by_tod rows)

/-- The payment chart slot (lines 248-261): charted unconditionally. -/
def payment_stage (rows : List Record) : ChartResult (List (String × ℤ)) :=
  ChartResult.chart (sales_by_payment rows)

/-- The aggregation tables and metrics one top-to-bottom run of the script
computes from the full record set and the sidebar state. -/
structure Dashboard where
  total_sales_metric : ℤ
  total_orders : Nat
  sales_by_product : List (String × ℤ)
  sales_by_tod : ChartResult (List (String × ℤ))
  sales_by_payment : ChartResult (List (String × ℤ))
  weekday_chart : ChartResult (List (String × Option ℤ))
  month_chart : ChartResult (List (String × Option ℤ))
  monthly_sales : List (String × ℤ)
deriving DecidableEq, Repr

/-- One render pass (lines 96-369): filter the frame, then build each chart's
table from the filtered rows — except the monthly trend (line 339), which the
code computes from a fresh `load_data()` result, the unfiltered full set. -/
def renderTables (full : List Record) (c : Criteria) : Dashboard :=
  let data := applyFilters full c
  { total_sales_metric := (data.map Record.total_sales).sum
    total_orders := data.length
    sales_by_product := sales_by_product data
    sales_by_tod := tod_stage data
    sales_by_payment := payment_stage data
    weekday_chart := weekday_stage data
    month_chart := month_stage data
    monthly_sales := monthly_sales full }

/-- The CSV file on disk as the loader can encounter it: absent, unreadable
as a table, or parsed into rows. -/
inductive CsvFile where
  | missing
  | malformed
  | wellFormed (rows : List Record)
deriving DecidableEq, Repr

/-- The errors `pd.read_csv` raises for the first two file states. -/
inductive LoadError where
  | fileNotFound
  | parseError
deriving DecidableEq, Repr

/-- `pd.read_csv('data/Coffe_sales.csv')` (line 19): parse the file, or raise. -/
def read_csv (f : CsvFile) : Except LoadError (List Record) :=
  match f with
  | .missing => Except.error LoadError.fileNotFound
  | .malformed => Except.error LoadError.parseError
  | .wellFormed rows => Except.ok rows

/-- Reading the CSV leaves the file unchanged: the read has no effect on the
underlying file state, which is threaded through untouched. -/
def read_csv_io (f : CsvFile) : Except LoadError (List Record) × CsvFile :=
  (read_csv f, f)

/-- `load_data` (lines 16-35): read the CSV and derive columns (here accessor
functions on `Record`).  The body has no try/except, so a read error
propagates to the caller unchanged. -/
def load_data (f : CsvFile) : Except LoadError (List Record) :=
  read_csv f

/-- The `@st.cache_data` layer over `load_data`: a cached value is returned
without re-reading; on a miss the result is computed and, when successful,
stored.  Exceptions are not cached. -/
def load_data_cached (f : CsvFile) (cache : Option (List Record)) :
    Except LoadError (List Record) × Option (List Record) :=
  match cache with
  | some rows => (Except.ok rows, some rows)
  | none =>
    match load_data f with
    | Except.ok rows => (Except.ok rows, some rows)
    | Except.error e => (Except.error e, none)

/-- How a top-to-bottom run of `dashboard.py` can end: with the rendered
dashboard, with a handled user-visible error message, or with an exception
nothing in the script catches. -/
inductive ScriptOutcome where
  | rendered (d : Dashboard)
  | errorMessage (msg : String)
  | uncaughtException (e : LoadError)
deriving DecidableEq, Repr

/-- The whole script: `data = load_data()` (line 37) and then the pipeline.
Line 37 sits inside no try/except, so a loader error ends the run as an
uncaught exception; no path produces a handled error message for it. -/
def runDashboard (f : CsvFile) (c : Criteria) : ScriptOutcome :=
  match load_data f with
  | Except.error e => ScriptOutcome.uncaughtException e
  | Except.ok rows => ScriptOutcome.rendered (renderTables rows c)

/-- Modelled from the spec: the input CSV schema.  The data file
`data/Coffe_sales.csv` is not part of the source tree; section 6 of the spec
fixes its columns as `Date, hour_of_day, Weekday, Month_name, Time_of_Day,
coffee_name, money` plus `City, cash_type`. -/
def csv_columns : List String :=
  ["Date", "hour_of_day", "Weekday", "Month_name", "Time_of_Day",
   "coffee_name", "money", "City", "cash_type"]

/-- Dataframe column assignment `data[c] = ...`: appends a new column, or
overwrites in place when the name already exists. -/
def addColumn (cols : List String) (c : String) : List String :=
  if c ∈ cols then cols else cols ++ [c]

/-- The columns present after `load_data` (lines 20-33): the CSV columns plus
the assignments made in the function body, in program order. -/
def load_data_columns : List String :=
  List.foldl addColumn csv_columns
    ["total_sales", "Date", "day_of_week", "month", "hour", "time_of_day",
     "cash_type", "product_line", "City", "month_year"]

/-- The columns present by the time line 324 tests `'order_date' in
data.columns`: the loaded columns plus `year`, `month_num`, `quarter`
(lines 42-44) and the helper columns of the weekday and month charts
(lines 277 and 301). -/
def script_columns : List String :=
  List.foldl addColumn load_data_columns
    ["year", "month_num", "quarter", "Weekday_full", "short_months"]

/-- The guard of the daily-trend block (line 324): `'order_date' in
data.columns and 'total_sales' in data.columns`. -/
def daily_chart_rendered : Bool :=
  decide ("order_date" ∈ script_columns) && decide ("total_sales" ∈ script_columns)

/-- A sample well-formed transaction row for concrete evaluations. -/
def r0 : Record :=
  { date := ⟨2024, 3, 1⟩, hour_of_day := 10, Weekday := "Friday",
    Month_name := "March", Time_of_Day := "Morning", coffee_name := "Latte",
    money := 10, City := "Kyiv", cash_type := "card" }

/-- A second sample row in another city, month and time of day. -/
def r1 : Record :=
  { date := ⟨2024, 4, 2⟩, hour_of_day := 20, Weekday := "Monday",
    Month_name := "April", Time_of_Day := "Night", coffee_name := "Americano",
    money := 5, City := "Lviv", cash_type := "cash" }

/-- A filter state selecting everything the sample rows contain. -/
def crit_all : Criteria :=
  { start_date := ⟨2024, 1, 1⟩, end_date := ⟨2024, 12, 31⟩,
    cities := ["Kyiv", "Lviv"], products := ["Latte", "Americano"],
    times_of_day := ["Morning", "Night"], payment_methods := ["card", "cash"] }

/-- A filter state whose city multiselect is cleared (empty selection). -/
def crit_no_cities : Criteria :=
  { crit_all with cities := [] }

/-- A filter state selecting only the city of `r0`. -/
def crit_kyiv : Criteria :=
  { crit_all with cities := ["Kyiv"] }

theorem insertLe_perm {α : Type} (le : α → α → Bool) (a : α) (l : List α) :
    List.Perm (insertLe le a l) (a :: l) := by
  induction l with
  | nil => simp [insertLe]
  | cons b t ih =>
    cases hab : le a b with
    | true => simp [insertLe, hab]
    | false =>
      simp only [insertLe, hab, Bool.false_eq_true, if_false]
      exact (ih.cons b).trans (List.Perm.swap a b t)

theorem sortBy_perm {α : Type} (le : α → α → Bool) (l : List α) :
    List.Perm (sortBy le l) l := by
  induction l with
  | nil => simp [sortBy]
  | cons a t ih => exact (insertLe_perm le a (sortBy le t)).trans (ih.cons a)

theorem pairwise_insertLe {α : Type} (le : α → α → Bool)
    (htot : ∀ a b, le a b = true ∨ le b a = true)
    (htrans : ∀ a b c, le a b = true → le b c = true → le a c = true)
    (a : α) (l : List α) (h : l.Pairwise (fun x y => le x y = true)) :
    (insertLe le a l).Pairwise (fun x y => le x y = true) := by
  induction l with
  | nil => simp [insertLe]
  | cons b t ih =>
    rw [List.pairwise_cons] at h
    obtain ⟨hb, ht⟩ := h
    cases hab : le a b with
    | true =>
      simp only [insertLe, hab, if_true]
      rw [List.pairwise_cons]
      refine ⟨?_, List.pairwise_cons.mpr ⟨hb, ht⟩⟩
      intro x hx
      rcases List.mem_cons.mp hx with hxb | hxt
      · subst hxb; exact hab
      · exact htrans a b x hab (hb x hxt)
    | false =>
      have hba : le b a = true := by
        rcases htot a b with h1 | h1
        · exact absurd h1 (by simp [hab])
        · exact h1
      simp only [insertLe, hab, Bool.false_eq_true, if_false]
      rw [List.pairwise_cons]
      refine ⟨?_, ih ht⟩
      intro x hx
      rcases List.mem_cons.mp ((insertLe_perm le a t).mem_iff.mp hx) with hxa | hxt
      · subst hxa; exact hba
      · exact hb x hxt

theorem pairwise_sortBy {α : Type} (le : α → α → Bool)
    (htot : ∀ a b, le a b = true ∨ le b a = true)
    (htrans : ∀ a b c, le a b = true → le b c = true → le a c = true)
    (l : List α) :
    (sortBy le l).Pairwise (fun x y => le x y = true) := by
  induction l with
  | nil => simp [sortBy]
  | cons a t ih => exact pairwise_insertLe le htot htrans a (sortBy le t) ih

theorem sum_map_add {α : Type} (l : List α) (f g : α → ℤ) :
    (l.map (fun x => f x + g x)).sum = (l.map f).sum + (l.map g).sum := by
  induction l with
  | nil => simp
  | cons a t ih => simp [ih]; ring

theorem sum_ite_zero {α : Type} [DecidableEq α] (l : List α) (x : α) (v : ℤ)
    (hx : x ∉ l) :
    (l.map (fun c => if c = x then v else 0)).sum = 0 := by
  induction l with
  | nil => simp
  | cons a t ih =>
    have hax : a ≠ x := fun h => hx (h ▸ List.mem_cons_self a t)
    have hxt : x ∉ t := fun h => hx (List.mem_cons_of_mem a h)
    simp [hax, ih hxt]

theorem sum_ite_single {α : Type} [DecidableEq α] (l : List α) (x : α) (v : ℤ)
    (hnd : l.Nodup) (hx : x ∈ l) :
    (l.map (fun c => if c = x then v else 0)).sum = v := by
  induction l with
  | nil => exact absurd hx (List.not_mem_nil x)
  | cons a t ih =>
    rw [List.nodup_cons] at hnd
    rcases List.mem_cons.mp hx with hax | hxt
    · subst hax
      simp [sum_ite_zero t x v hnd.1]
    · have hax : a ≠ x := fun h => hnd.1 (h ▸ hxt)
      simp [hax, ih hnd.2 hxt]

theorem sum_groups_eq (pairs : List (String × ℤ)) (ks : List String)
    (hnd : ks.Nodup) (hcov : ∀ p ∈ pairs, p.1 ∈ ks) :
    (ks.map (fun k => ((pairs.filter (fun p => decide (p.1 = k))).map Prod.snd).sum)).sum
      = (pairs.map Prod.snd).sum := by
  induction pairs with
  | nil => simp
  | cons p ps ih =>
    have hcov2 : ∀ q ∈ ps, q.1 ∈ ks := fun q hq => hcov q (List.mem_cons_of_mem p hq)
    have hmem : p.1 ∈ ks := hcov p (List.mem_cons_self p ps)
    have hsplit : (fun k => (((p :: ps).filter (fun q => decide (q.1 = k))).map Prod.snd).sum)
        = fun k => (if k = p.1 then p.2 else 0)
            + ((ps.filter (fun q => decide (q.1 = k))).map Prod.snd).sum := by
      funext k
      by_cases h : p.1 = k
      · simp [List.filter_cons, h]
      · have hne : ¬ k = p.1 := fun hk => h hk.symm
        simp [List.filter_cons, h, hne]
    rw [hsplit, sum_map_add, sum_ite_single ks p.1 p.2 hnd hmem, ih hcov2]
    simp

theorem sum_map_const_zero {α : Type} (l : List α) :
    (l.map (fun _ => (0 : ℤ))).sum = 0 := by
  induction l with
  | nil => rfl
  | cons a t ih => simp [ih]

theorem keysOf_groupbySumP (pairs : List (String × ℤ)) :
    keysOf (groupbySumP pairs) = sortBy strLe ((pairs.map Prod.fst).dedup) := by
  rw [keysOf, groupbySumP, List.map_map]
  have h : (Prod.fst ∘ fun k : String =>
      (k, ((pairs.filter (fun p => decide (p.1 = k))).map Prod.snd).sum)) = fun k : String => k :=
    funext fun k => rfl
  rw [h]
  simp

theorem nodup_keysOf_groupbySumP (pairs : List (String × ℤ)) :
    (keysOf (groupbySumP pairs)).Nodup := by
  rw [keysOf_groupbySumP]
  exact ((sortBy_perm strLe ((pairs.map Prod.fst).dedup)).nodup_iff).mpr (List.nodup_dedup _)

theorem mem_keysOf_groupbySumP (pairs : List (String × ℤ)) (k : String) :
    k ∈ keysOf (groupbySumP pairs) ↔ k ∈ pairs.map Prod.fst := by
  rw [keysOf_groupbySumP]
  rw [(sortBy_perm strLe ((pairs.map Prod.fst).dedup)).mem_iff]
  exact List.mem_dedup

theorem groupbySumP_snd_sum (pairs : List (String × ℤ)) :
    ((groupbySumP pairs).map Prod.snd).sum = (pairs.map Prod.snd).sum := by
  have hnd : (sortBy strLe ((pairs.map Prod.fst).dedup)).Nodup :=
    ((sortBy_perm strLe ((pairs.map Prod.fst).dedup)).nodup_iff).mpr (List.nodup_dedup _)
  have hcov : ∀ p ∈ pairs, p.1 ∈ sortBy strLe ((pairs.map Prod.fst).dedup) := by
    intro p hp
    rw [(sortBy_perm strLe ((pairs.map Prod.fst).dedup)).mem_iff, List.mem_dedup]
    exact List.mem_map_of_mem Prod.fst hp
  have h := sum_groups_eq pairs (sortBy strLe ((pairs.map Prod.fst).dedup)) hnd hcov
  rw [groupbySumP, List.map_map]
  exact h

theorem groupbySum_snd_sum (rows : List Record) (key : Record → String) :
    ((groupbySum rows key).map Prod.snd).sum = (rows.map Record.total_sales).sum := by
  rw [groupbySum, groupbySumP_snd_sum, List.map_map]
  rfl

theorem lookupKey_eq_none {α : Type} (t : List (String × α)) (c : String)
    (h : c ∉ keysOf t) : lookupKey t c = none := by
  induction t with
  | nil => rfl
  | cons kv s ih =>
    have h1 : c ≠ kv.1 := fun hc => h (hc ▸ List.mem_cons_self kv.1 (keysOf s))
    have h2 : c ∉ keysOf s := fun hc => h (List.mem_cons_of_mem kv.1 hc)
    obtain ⟨k, v⟩ := kv
    simpa [lookupKey, h1] using ih h2

theorem length_reindex (t : List (String × ℤ)) (canon : List String) :
    (reindex t canon).length = canon.length := by
  simp [reindex]

theorem keysOf_reindex (t : List (String × ℤ)) (canon : List String) :
    keysOf (reindex t canon) = canon := by
  rw [keysOf, reindex, List.map_map]
  have h : (Prod.fst ∘ fun c : String => (c, lookupKey t c)) = fun c : String => c :=
    funext fun c => rfl
  rw [h]
  simp

theorem sum_reindex (t : List (String × ℤ)) (canon : List String)
    (hcnd : canon.Nodup) (htnd : (keysOf t).Nodup)
    (hsub : ∀ k ∈ keysOf t, k ∈ canon) :
    ((reindex t canon).map (fun p => p.2.getD 0)).sum = (t.map Prod.snd).sum := by
  induction t with
  | nil =>
    rw [reindex, List.map_map]
    have h : ((fun p : String × Option ℤ => p.2.getD 0) ∘
        fun c => (c, lookupKey ([] : List (String × ℤ)) c)) = fun _ => (0 : ℤ) :=
      funext fun c => rfl
    rw [h]
    simp [sum_map_const_zero canon]
  | cons kv s ih =>
    obtain ⟨k, v⟩ := kv
    have hks : k ∉ keysOf s := (List.nodup_cons.mp htnd).1
    have hsnd : (keysOf s).Nodup := (List.nodup_cons.mp htnd).2
    have hssub : ∀ x ∈ keysOf s, x ∈ canon :=
      fun x hx => hsub x (List.mem_cons_of_mem k hx)
    have hkc : k ∈ canon := hsub k (List.mem_cons_self k (keysOf s))
    have hpoint : (fun c => ((lookupKey ((k, v) :: s) c).getD 0))
        = fun c => (if c = k then v else 0) + (lookupKey s c).getD 0 := by
      funext c
      by_cases h : c = k
      · subst h
        simp [lookupKey, lookupKey_eq_none s c hks]
      · simp [lookupKey, h]
    rw [reindex] at *
    rw [List.map_map] at *
    have : ((fun p : String × Option ℤ => p.2.getD 0) ∘ fun c => (c, lookupKey ((k, v) :: s) c))
        = fun c => (lookupKey ((k, v) :: s) c).getD 0 := rfl
    rw [this, hpoint, sum_map_add, sum_ite_single canon k v hcnd hkc]
    have hs : ((fun p : String × Option ℤ => p.2.getD 0) ∘ fun c => (c, lookupKey s c))
        = fun c => (lookupKey s c).getD 0 := rfl
    rw [hs] at ih
    rw [ih hsnd hssub]
    simp

theorem mem_applyFilters (rows : List Record) (c : Criteria) (r : Record) :
    r ∈ applyFilters rows c ↔
      r ∈ rows ∧ (c.start_date ≤ r.date ∧ r.date ≤ c.end_date) ∧
      r.City ∈ c.cities ∧ r.product_line ∈ c.products ∧
      r.time_of_day ∈ c.times_of_day ∧ r.cash_type ∈ c.payment_methods := by
  simp only [applyFilters, filterDate, List.mem_filter, Bool.and_eq_true,
    decide_eq_true_eq]
  tauto

/-- C1: for every record set and every filter-criteria combination, the
filter-stage output is a subset of the input; a record belongs to the output
exactly when it belongs to the input, its `Date` lies in
`[start_date, end_date]`, and its `City`, `product_line`, `time_of_day` and
`cash_type` are members of the respective selected lists (AND across
dimensions, OR inside each list via membership); and an empty selection list
in any dimension yields an empty result. -/
theorem filter_stage_conjunction (rows : List Record) (c : Criteria) :
    applyFilters rows c ⊆ rows ∧
    (∀ r : Record, r ∈ applyFilters rows c ↔
      r ∈ rows ∧ (c.start_date ≤ r.date ∧ r.date ≤ c.end_date) ∧
      r.City ∈ c.cities ∧ r.product_line ∈ c.products ∧
      r.time_of_day ∈ c.times_of_day ∧ r.cash_type ∈ c.payment_methods) ∧
    (c.cities = [] → applyFilters rows c = []) ∧
    (c.products = [] → applyFilters rows c = []) ∧
    (c.times_of_day = [] → applyFilters rows c = []) ∧
    (c.payment_methods = [] → applyFilters rows c = []) := by
  refine ⟨?_, mem_applyFilters rows c, ?_, ?_, ?_, ?_⟩
  · intro r hr
    exact ((mem_applyFilters rows c r).mp hr).1
  all_goals
    intro h
    refine List.eq_nil_iff_forall_not_mem.mpr fun r hr => ?_
    have hm := (mem_applyFilters rows c r).mp hr
    rw [h] at hm
    simp at hm

/-- Witness for C1 at a concrete input: clearing the city multiselect for the
two-row sample set empties the filtered set. -/
theorem filter_stage_conjunction_witness : applyFilters [r0, r1] crit_no_cities = [] :=
  (filter_stage_conjunction [r0, r1] crit_no_cities).2.2.1 rfl

/-- C2: for every reference date, each non-custom preset resolves to exactly
the window the spec defines (last 7/30 days as calendar-day subtraction, this
month/quarter/year from their first day to today, previous year as the whole
previous calendar year); at the reference date 2025-06-15 the six presets
produce the concrete windows listed in the spec. -/
theorem date_preset_resolution (today min_date max_date : Date)
    (dr : Option (Date × Date)) :
    (∀ p : DatePreset, p ≠ DatePreset.custom →
      some (resolvePreset p today min_date max_date dr) = specPresetWindow p today) ∧
    resolvePreset DatePreset.thisMonth ⟨2025, 6, 15⟩ min_date max_date dr
      = (⟨2025, 6, 1⟩, ⟨2025, 6, 15⟩) ∧
    resolvePreset DatePreset.thisQuarter ⟨2025, 6, 15⟩ min_date max_date dr
      = (⟨2025, 4, 1⟩, ⟨2025, 6, 15⟩) ∧
    resolvePreset DatePreset.prevYear ⟨2025, 6, 15⟩ min_date max_date dr
      = (⟨2024, 1, 1⟩, ⟨2024, 12, 31⟩) ∧
    resolvePreset DatePreset.last7days ⟨2025, 6, 15⟩ min_date max_date dr
      = (⟨2025, 6, 8⟩, ⟨2025, 6, 15⟩) ∧
    resolvePreset DatePreset.last30days ⟨2025, 6, 15⟩ min_date max_date dr
      = (⟨2025, 5, 16⟩, ⟨2025, 6, 15⟩) ∧
    resolvePreset DatePreset.thisYear ⟨2025, 6, 15⟩ min_date max_date dr
      = (⟨2025, 1, 1⟩, ⟨2025, 6, 15⟩) := by
  refine ⟨?_, rfl, rfl, rfl, rfl, rfl, rfl⟩
  intro p hp
  cases p with
  | custom => exact absurd rfl hp
  | last7days => rfl
  | last30days => rfl
  | thisMonth => rfl
  | thisYear => rfl
  | prevYear => rfl
  | thisQuarter =>
    have hm : 3 * ((today.month - 1) / 3 + 1) - 2 = 3 * ((today.month - 1) / 3) + 1 := by
      omega
    show some ((⟨today.year, 3 * ((today.month - 1) / 3 + 1) - 2, 1⟩ : Date), today)
      = some ((⟨today.year, 3 * ((today.month - 1) / 3) + 1, 1⟩ : Date), today)
    rw [hm]

/-- Witness for C2 at a concrete input: the "This year" preset resolved at
reference date 2025-06-15 matches the spec-defined window. -/
theorem date_preset_resolution_witness :
    some (resolvePreset DatePreset.thisYear ⟨2025, 6, 15⟩ ⟨2024, 3, 1⟩ ⟨2025, 7, 30⟩ none)
      = specPresetWindow DatePreset.thisYear ⟨2025, 6, 15⟩ :=
  (date_preset_resolution ⟨2025, 6, 15⟩ ⟨2024, 3, 1⟩ ⟨2025, 7, 30⟩ none).1
    DatePreset.thisYear (by decide)

/-- C5 (code evaluated at the failing input): the daily-trend block is guarded
by `'order_date' in data.columns`, but no load or derivation path ever creates
an `order_date` column — the guard is false for the repository's schema, so
the daily revenue chart is never computed or rendered, even though the other
half of the guard (`total_sales`) holds. -/
theorem daily_trend_guard_never_fires :
    daily_chart_rendered = false ∧
    "order_date" ∉ script_columns ∧
    "total_sales" ∈ script_columns := by
  decide

/-- C9 is false as stated: a missing input file is not mapped to any
`DataUnavailable`-style handled message — at the concrete input (missing CSV,
the sample filter state) the script run ends as the uncaught `read_csv`
exception. -/
theorem missing_file_uncaught_crash :
    runDashboard CsvFile.missing crit_all
      = ScriptOutcome.uncaughtException LoadError.fileNotFound := by
  decide

/-- C9 amended: `load_data` contains no error handling, so a missing file ends
the run as an uncaught file-not-found exception, a malformed file as an
uncaught parse exception, and no run ever produces a handled user-visible
error message for a load failure. -/
theorem load_error_propagates (f : CsvFile) (c : Criteria) (msg : String)
    (hf : f = CsvFile.missing) :
    runDashboard f c = ScriptOutcome.uncaughtException LoadError.fileNotFound ∧
    runDashboard CsvFile.malformed c = ScriptOutcome.uncaughtException LoadError.parseError ∧
    (∀ g : CsvFile, runDashboard g c ≠ ScriptOutcome.errorMessage msg) := by
  subst hf
  refine ⟨rfl, rfl, ?_⟩
  intro g
  cases g <;> simp [runDashboard, load_data, read_csv]

/-- Witness for C9 (amended) at a concrete input. -/
theorem load_error_propagates_witness :
    runDashboard CsvFile.missing crit_all
        = ScriptOutcome.uncaughtException LoadError.fileNotFound ∧
    runDashboard CsvFile.malformed crit_all
        = ScriptOutcome.uncaughtException LoadError.parseError ∧
    (∀ g : CsvFile, runDashboard g crit_all ≠ ScriptOutcome.errorMessage "DataUnavailable") :=
  load_error_propagates CsvFile.missing crit_all "DataUnavailable" rfl

/-- C10: loading is deterministic and idempotent — the memoized second load
returns exactly the first load's result, which is the fresh parse of the file,
and reading leaves the underlying file unchanged. -/
theorem load_idempotent_and_readonly (f : CsvFile) :
    (load_data_cached f (load_data_cached f none).2).1 = (load_data_cached f none).1 ∧
    (load_data_cached f none).1 = load_data f ∧
    (read_csv_io f).2 = f := by
  cases f <;> simp [load_data_cached, load_data, read_csv, read_csv_io]

theorem weekday_map_eq_some (s k : String) :
    weekday_map s = some k ↔ s ∈ day_order ∧ k = s := by
  unfold weekday_map
  by_cases h : s ∈ day_order
  · simp [h, eq_comm]
  · simp [h]

theorem mapped_pairs_of_total (rows : List Record)
    (hw : ∀ r ∈ rows, r.Weekday ∈ day_order) :
    mapped_pairs rows (fun r => weekday_map r.Weekday)
      = rows.map (fun r => (r.Weekday, r.total_sales)) := by
  induction rows with
  | nil => rfl
  | cons r t ih =>
    have h1 : r.Weekday ∈ day_order := hw r (List.mem_cons_self r t)
    have ht : ∀ x ∈ t, x.Weekday ∈ day_order := fun x hx => hw x (List.mem_cons_of_mem r hx)
    have hr : (weekday_map r.Weekday).map (fun k => (k, r.total_sales))
        = some (r.Weekday, r.total_sales) := by
      simp [weekday_map, h1]
    simp only [mapped_pairs, List.filterMap_cons, hr, List.map_cons]
    exact congrArg (List.cons _) (ih ht)

theorem sales_by_weekday_sum (rows : List Record)
    (hw : ∀ r ∈ rows, r.Weekday ∈ day_order) :
    ((sales_by_weekday rows).map (fun p => p.2.getD 0)).sum
      = (rows.map Record.total_sales).sum := by
  rw [sales_by_weekday]
  have hsub : ∀ k ∈ keysOf (groupbySumP (mapped_pairs rows (fun r => weekday_map r.Weekday))),
      k ∈ day_order := by
    intro k hk
    rw [mem_keysOf_groupbySumP] at hk
    rcases List.mem_map.mp hk with ⟨p, hp, hfst⟩
    rcases List.mem_filterMap.mp hp with ⟨r, _, hsome⟩
    rcases Option.map_eq_some'.mp hsome with ⟨w, hw1, hw2⟩
    have := (weekday_map_eq_some r.Weekday w).mp hw1
    rw [← hfst, ← hw2]
    exact this.2 ▸ this.1
  rw [sum_reindex _ day_order (by decide)
    (nodup_keysOf_groupbySumP _) hsub]
  rw [groupbySumP_snd_sum, mapped_pairs_of_total rows hw, List.map_map]
  rfl

theorem length_groupbySum (rows : List Record) (key : Record → String) :
    (groupbySum rows key).length = ((rows.map key).dedup).length := by
  have h1 : (rows.map (fun r => (key r, r.total_sales))).map Prod.fst = rows.map key := by
    rw [List.map_map]
    rfl
  rw [groupbySum, groupbySumP, List.length_map, (sortBy_perm strLe _).length_eq, h1]

/-- C7: for every record set (with canonical weekday labels, as the data
model requires) and every grouping key, the groupby-sum table's values sum to
the sum of `total_sales` over the grouped rows — no row is dropped or double
counted; the same holds for the product table after its value sort and for
the reindexed weekday table. -/
theorem aggregation_totals_preserved (rows : List Record) (key : Record → String)
    (hw : ∀ r ∈ rows, r.Weekday ∈ day_order) :
    ((groupbySum rows key).map Prod.snd).sum = (rows.map Record.total_sales).sum ∧
    ((sales_by_product rows).map Prod.snd).sum = (rows.map Record.total_sales).sum ∧
    ((sales_by_weekday rows).map (fun p => p.2.getD 0)).sum
      = (rows.map Record.total_sales).sum := by
  refine ⟨groupbySum_snd_sum rows key, ?_, sales_by_weekday_sum rows hw⟩
  have hperm := (sortBy_perm (fun a b : String × ℤ => decide (b.2 ≤ a.2))
    (groupbySum rows Record.product_line)).map Prod.snd
  rw [sales_by_product, hperm.sum_eq]
  exact groupbySum_snd_sum rows Record.product_line

/-- Witness for C7 at a concrete input: the two-row sample set grouped by
city, by product (sorted), and by weekday (reindexed). -/
theorem aggregation_totals_preserved_witness :
    ((groupbySum [r0, r1] Record.City).map Prod.snd).sum
        = ([r0, r1].map Record.total_sales).sum ∧
    ((sales_by_product [r0, r1]).map Prod.snd).sum
        = ([r0, r1].map Record.total_sales).sum ∧
    ((sales_by_weekday [r0, r1]).map (fun p => p.2.getD 0)).sum
        = ([r0, r1].map Record.total_sales).sum :=
  aggregation_totals_preserved [r0, r1] Record.City (by decide)

/-- C3 is false as stated: on a filtered set whose single row is a Morning
transaction, the time-of-day table holds one row, not the claimed canonical
four — lines 230-233 group and sort that table but never reindex it. -/
theorem tod_table_not_reindexed :
    (sales_by_tod [r0]).length = 1 ∧ (sales_by_tod [r0]).length ≠ 4 := by
  decide

theorem lookupKey_weekday_absent (rows : List Record) (c : String)
    (habs : ∀ r ∈ rows, r.Weekday ≠ c) :
    lookupKey (groupbySumP (mapped_pairs rows (fun r => weekday_map r.Weekday))) c = none := by
  apply lookupKey_eq_none
  intro hc
  rw [mem_keysOf_groupbySumP] at hc
  rcases List.mem_map.mp hc with ⟨p, hp, hfst⟩
  rcases List.mem_filterMap.mp hp with ⟨r, hr, hsome⟩
  rcases Option.map_eq_some'.mp hsome with ⟨w, hw1, hw2⟩
  have h := (weekday_map_eq_some r.Weekday w).mp hw1
  apply habs r hr
  rw [← h.2, ← hfst, ← hw2]

/-- C3 amended: the weekday and month tables are reindexed and always hold
exactly 7 and 12 rows; a canonical weekday with no matching rows still
appears, but with a missing (NaN) value rather than a numeric zero; the
time-of-day table is never reindexed and holds exactly one row per distinct
time-of-day value present in the filtered rows. -/
theorem reindexed_table_shapes (rows : List Record) (c : String)
    (hc : c ∈ day_order) (habs : ∀ r ∈ rows, r.Weekday ≠ c) :
    (sales_by_weekday rows).length = 7 ∧
    (sales_by_month rows).length = 12 ∧
    (c, (none : Option ℤ)) ∈ sales_by_weekday rows ∧
    (sales_by_tod rows).length = ((rows.map Record.time_of_day).dedup).length := by
  refine ⟨?_, ?_, ?_, ?_⟩
  · rw [sales_by_weekday, length_reindex]
    rfl
  · rw [sales_by_month, length_reindex]
    rfl
  · rw [sales_by_weekday, reindex]
    refine List.mem_map.mpr ⟨c, hc, ?_⟩
    rw [lookupKey_weekday_absent rows c habs]
  · rw [sales_by_tod, (sortBy_perm _ _).length_eq, length_groupbySum]

/-- Witness for C3 (amended) at a concrete input: the one-row Morning/Friday
sample, with "Sunday" as the absent canonical weekday. -/
theorem reindexed_table_shapes_witness :
    (sales_by_weekday [r0]).length = 7 ∧
    (sales_by_month [r0]).length = 12 ∧
    ("Sunday", (none : Option ℤ)) ∈ sales_by_weekday [r0] ∧
    (sales_by_tod [r0]).length = (([r0].map Record.time_of_day).dedup).length :=
  reindexed_table_shapes [r0] "Sunday" (by decide) (by decide)

/-- C8: the weekday table's rows are keyed Monday..Sunday in calendar order
and the month table's Jan..Dec in calendar order; the product table is sorted
by descending aggregate value; the time-of-day table's rows follow the fixed
Morning, Afternoon, Evening, Night rank order (distinct keys), regardless of
the aggregate values. -/
theorem chart_table_ordering (rows : List Record) :
    keysOf (sales_by_weekday rows) = day_order ∧
    keysOf (sales_by_month rows) = short_months ∧
    (sales_by_product rows).Pairwise (fun a b => b.2 ≤ a.2) ∧
    (sales_by_tod rows).Pairwise (fun a b => todRank a.1 ≤ todRank b.1) ∧
    (keysOf (sales_by_tod rows)).Nodup := by
  refine ⟨?_, ?_, ?_, ?_, ?_⟩
  · rw [sales_by_weekday, keysOf_reindex]
  · rw [sales_by_month, keysOf_reindex]
  · have h := pairwise_sortBy (fun a b : String × ℤ => decide (b.2 ≤ a.2))
      (fun a b => by rcases le_total b.2 a.2 with h | h <;> simp [h])
      (fun a b c h1 h2 => by
        simp only [decide_eq_true_eq] at h1 h2 ⊢
        exact le_trans h2 h1)
      (groupbySum rows Record.product_line)
    rw [sales_by_product]
    exact h.imp (by simp)
  · have h := pairwise_sortBy (fun a b : String × ℤ => decide (todRank a.1 ≤ todRank b.1))
      (fun a b => by rcases Nat.le_total (todRank a.1) (todRank b.1) with h | h <;> simp [h])
      (fun a b c h1 h2 => by
        simp only [decide_eq_true_eq] at h1 h2 ⊢
        exact le_trans h1 h2)
      (groupbySum rows Record.time_of_day)
    rw [sales_by_tod]
    exact h.imp (by simp)
  · rw [sales_by_tod]
    have hperm := (sortBy_perm (fun a b : String × ℤ => decide (todRank a.1 ≤ todRank b.1))
      (groupbySum rows Record.time_of_day)).map Prod.fst
    exact hperm.nodup_iff.mpr (nodup_keysOf_groupbySumP _)

/-- C4 is false as stated: at the concrete two-row set with the Kyiv-only
filter, the monthly revenue trend table the render pass computes is not the
group-by-month-year sum over the filtered rows — line 339 deliberately
groups a fresh unfiltered `load_data()` result. -/
theorem monthly_trend_ignores_filters :
    (renderTables [r0, r1] crit_kyiv).monthly_sales
      ≠ groupbySum (applyFilters [r0, r1] crit_kyiv) Record.month_year := by
  decide

/-- C4 amended: each modelled chart table — product, time-of-day, payment,
weekday, month — is computed by grouping the filtered rows and summing the
monetary column, but the monthly revenue trend is computed from the full
unfiltered set and is therefore invariant under every change of filter
criteria. -/
theorem chart_tables_from_filtered_rows (full : List Record) (c c2 : Criteria) :
    (renderTables full c).sales_by_product = sales_by_product (applyFilters full c) ∧
    (renderTables full c).sales_by_tod = tod_stage (applyFilters full c) ∧
    (renderTables full c).sales_by_payment = payment_stage (applyFilters full c) ∧
    (renderTables full c).weekday_chart = weekday_stage (applyFilters full c) ∧
    (renderTables full c).month_chart = month_stage (applyFilters full c) ∧
    (renderTables full c).monthly_sales = groupbySum full Record.month_year ∧
    (renderTables full c).monthly_sales = (renderTables full c2).monthly_sales :=
  ⟨rfl, rfl, rfl, rfl, rfl, rfl, rfl⟩

/-- C6 is false as stated: at the concrete empty filter state (city
multiselect cleared) the payment chart stage signals no "no data" outcome —
it renders a chart over the empty aggregation table, indistinguishable from
charting true zero sales. -/
theorem payment_stage_no_empty_signal :
    payment_stage (applyFilters [r0, r1] crit_no_cities) ≠ ChartResult.noData ∧
    payment_stage (applyFilters [r0, r1] crit_no_cities) = ChartResult.chart [] := by
  decide

/-- C6 amended: only the weekday and month chart stages signal the "no data"
placeholder, exactly when their summed aggregate is zero; the product,
time-of-day and payment stages chart their aggregation tables
unconditionally, so an empty filtered set yields empty-table charts there
with no distinct signal. -/
theorem no_data_signalling_policy (rows rs : List Record)
    (hwz : ((sales_by_weekday rows).map (fun p => p.2.getD 0)).sum = 0)
    (hmz : ((sales_by_month rows).map (fun p => p.2.getD 0)).sum = 0)
    (hnz : ((sales_by_weekday rs).map (fun p => p.2.getD 0)).sum ≠ 0) :
    weekday_stage rows = ChartResult.noData ∧
    month_stage rows = ChartResult.noData ∧
    weekday_stage rs = ChartResult.chart (sales_by_weekday rs) ∧
    product_stage rs = ChartResult.chart (sales_by_product rs) ∧
    tod_stage rs = ChartResult.chart (sales_by_tod rs) ∧
    payment_stage rs = ChartResult.chart (sales_by_payment rs) := by
  refine ⟨?_, ?_, ?_, rfl, rfl, rfl⟩
  · simp [weekday_stage, hwz]
  · simp [month_stage, hmz]
  · have hne : ¬(((sales_by_weekday rs).map (fun p => p.2.getD 0)).sum = 0
        ∨ sales_by_weekday rs = []) := by
      rintro (h | h)
      · exact hnz h
      · apply hnz
        rw [h]
        rfl
    simp [weekday_stage, hne]

/-- Witness for C6 (amended) at concrete inputs: the empty filtered set
triggers both placeholders, and the one-row sample set charts every table. -/
theorem no_data_signalling_policy_witness :
    weekday_stage [] = ChartResult.noData ∧
    month_stage [] = ChartResult.noData ∧
    weekday_stage [r0] = ChartResult.chart (sales_by_weekday [r0]) ∧
    product_stage [r0] = ChartResult.chart (sales_by_product [r0]) ∧
    tod_stage [r0] = ChartResult.chart (sales_by_tod [r0]) ∧
    payment_stage [r0] = ChartResult.chart (sales_by_payment [r0]) :=
  no_data_signalling_policy [] [r0] (by decide) (by decide) (by decide)
